import Mathlib

/-!
# Resume-to-job matcher form controller (`src/App.js`)

A shallow embedding of the event handlers of the `App` component.  The React
state hooks become the fields of one `State` record, every `setX(v)` call
becomes a record update, and the three `fetch` exchanges are answered by an
explicit function from the request to what the network gave back.  Each
handler returns the final state together with the list of requests it issued.
-/

namespace App

/-! ## JavaScript primitives used by the handlers -/

/-- Code points removed by `String.prototype.trim`: ECMAScript WhiteSpace
(TAB, VT, FF, SP, NBSP, ZWNBSP and the Unicode space separators) together
with the LineTerminator code points (LF, CR, LS, PS). -/
def isJsWhitespace (c : Char) : Bool :=
  let n := c.toNat
  n == 0x09 || n == 0x0A || n == 0x0B || n == 0x0C || n == 0x0D ||
  n == 0x20 || n == 0xA0 || n == 0x1680 ||
  (0x2000 ≤ n && n ≤ 0x200A) ||
  n == 0x2028 || n == 0x2029 || n == 0x202F || n == 0x205F ||
  n == 0x3000 || n == 0xFEFF

/-- Drop the white space at the front of a list of characters. -/
def trimStartChars (cs : List Char) : List Char :=
  cs.dropWhile isJsWhitespace

/-- Drop the white space at the back of a list of characters. -/
def trimEndChars (cs : List Char) : List Char :=
  (cs.reverse.dropWhile isJsWhitespace).reverse

/-- The method `s.trim()`: white space removed from both ends. -/
def jsTrim (s : String) : String :=
  String.mk (trimEndChars (trimStartChars s.data))

/-- Truthiness of a string value: every string but the empty one is truthy. -/
def jsTruthy (s : String) : Bool :=
  s.data.length != 0

/-- The method `xs.slice(start, stop)` with the relative-index rules of
ECMAScript: a negative index counts from the end, both indices are clamped
to `[0, length]`, and an empty range gives the empty array. -/
def jsSlice {α : Type} (xs : List α) (start stop : Int) : List α :=
  let len : Int := xs.length
  let k : Int := if start < 0 then max (len + start) 0 else min start len
  let final : Int := if stop < 0 then max (len + stop) 0 else min stop len
  (xs.drop k.toNat).take (final - k).toNat

/-- One iteration of the loop of `Array.prototype.join`: the separator is
appended before every element but the first. -/
def jsJoinStep (sep : String) (acc : String × Nat) (x : String) : String × Nat :=
  ((if acc.2 > 0 then acc.1 ++ sep else acc.1) ++ x, acc.2 + 1)

/-- The method `xs.join(sep)` on an array of strings. -/
def jsJoin (xs : List String) (sep : String) : String :=
  (xs.foldl (jsJoinStep sep) ("", 0)).1

/-! ## Data model -/

/-- An element of `rewrittenBullets`. -/
structure RewrittenBullet where
  original : String
  rewritten : String
  deriving DecidableEq, Repr

/-- The state hooks of the component, in declaration order. -/
structure State where
  resumeInput : String
  resumeText : String
  jobDescription : String
  fileName : String
  bullets : List String
  numBullets : Int
  matchScore : Option Int
  gaps : List String
  rewrittenBullets : List RewrittenBullet
  loading : Bool
  error : String
  deriving DecidableEq, Repr

/-- The initial values passed to `useState`. -/
def initialState : State where
  resumeInput := "upload"
  resumeText := ""
  jobDescription := ""
  fileName := ""
  bullets := ["", "", "", "", ""]
  numBullets := 5
  matchScore := none
  gaps := []
  rewrittenBullets := []
  loading := false
  error := ""

/-- A file picked in the file input. -/
structure File where
  name : String
  content : String
  deriving DecidableEq, Repr

/-- The three requests the component can send to `API_URL`. -/
inductive Request where
  | uploadResume (file : File)
  | analyze (resume_text : String) (job_description : String)
  | rewriteBullets (bullets : List String) (job_description : String)
  deriving DecidableEq, Repr

/-- What `await fetch(...)` followed by `await response.json()` can give:
the fetch promise rejects with an error carrying `message`, or a response
arrives whose `ok` flag is given and whose `json()` either rejects
(`Except.error message`) or resolves to the data. -/
inductive Fetched (α : Type) where
  | rejected (message : String)
  | response (ok : Bool) (json : Except String α)

/-- A fetch that failed before any body was read: the promise rejected (a
transport error) or the response status was not 2xx (`ok` is false). -/
def Fetched.failed {α : Type} : Fetched α → Bool
  | .rejected _ => true
  | .response ok _ => !ok

/-- Body of the `/upload-resume` response.  `bullets` is `none` when the
field is missing or null, in which case `data.bullets.slice` raises a
TypeError. -/
structure UploadData where
  text : String
  filename : String
  bullets : Option (List String)

/-- Body of the `/analyze` response. -/
structure AnalyzeData where
  score : Int
  gaps : List String

/-- Body of the `/rewrite-bullets` response. -/
structure RewriteData where
  bullets : List RewrittenBullet

/-- Final state of a handler and the requests it sent, oldest first. -/
structure Outcome where
  state : State
  requests : List Request

/-- Message of the TypeError raised by reading `slice` of an undefined
value (the wording of V8; no statement below depends on it). -/
def sliceTypeErrorMessage : String :=
  "Cannot read properties of undefined (reading 'slice')"

/-! ## Handlers -/

/-- The `try` block of `handleFileUpload`: the state reached when the block
ends or throws, and the message of the thrown error if any. -/
def uploadTry (s : State) : Fetched UploadData → State × Option String
  | .rejected message => (s, some message)
  | .response ok json =>
    if !ok then (s, some "Failed to upload file")
    else
      match json with
      | .error message => (s, some message)
      | .ok data =>
        let s1 := { s with resumeText := data.text }
        let s2 := { s1 with fileName := data.filename }
        match data.bullets with
        | none => (s2, some sliceTypeErrorMessage)
        | some bs =>
          let s3 := { s2 with
            bullets := jsSlice (jsSlice bs 0 5 ++ List.replicate 5 "") 0 5 }
          ({ s3 with error := "" }, none)

/-- The handler `handleFileUpload`; `file` is `e.target.files[0]`. -/
def handleFileUpload (s : State) (file : Option File)
    (net : Request → Fetched UploadData) : Outcome :=
  match file with
  | none => { state := s, requests := [] }
  | some f =>
    let s1 := { s with loading := true }
    let s2 := { s1 with error := "" }
    let req := Request.uploadResume f
    let r := uploadTry s2 (net req)
    let s3 :=
      match r.2 with
      | some message => { r.1 with error := "Error uploading file: " ++ message }
      | none => r.1
    { state := { s3 with loading := false }, requests := [req] }

/-- The loop `while (newBullets.length < num) newBullets.push('')`. -/
def pushWhileShorter (newBullets : List String) (num : Int) : List String :=
  if (newBullets.length : Int) < num then
    pushWhileShorter (newBullets ++ [""]) num
  else newBullets
termination_by (num - newBullets.length).toNat
decreasing_by
  simp only [List.length_append, List.length_singleton]
  omega

/-- The handler `handleNumBulletsChange`. -/
def handleNumBulletsChange (s : State) (num : Int) : State :=
  let s1 := { s with numBullets := num }
  let newBullets := pushWhileShorter s.bullets num
  { s1 with bullets := jsSlice newBullets 0 num }

/-- The handler `handleBulletChange` for an index inside the array, the
only indices the rendered text areas pass (`bullets.map`). -/
def handleBulletChange (s : State) (index : Nat) (value : String) : State :=
  { s with bullets := s.bullets.set index value }

/-- The `try` block of `handleAnalyze`. -/
def analyzeTry (s : State) : Fetched AnalyzeData → State × Option String
  | .rejected message => (s, some message)
  | .response ok json =>
    if !ok then (s, some "Failed to analyze match")
    else
      match json with
      | .error message => (s, some message)
      | .ok data =>
        let s1 := { s with matchScore := some data.score }
        ({ s1 with gaps := data.gaps }, none)

/-- The handler `handleAnalyze`. -/
def handleAnalyze (s : State) (net : Request → Fetched AnalyzeData) : Outcome :=
  if !jsTruthy (jsTrim s.resumeText) || !jsTruthy (jsTrim s.jobDescription) then
    { state := { s with error := "Please provide both resume and job description" },
      requests := [] }
  else
    let s1 := { s with loading := true }
    let s2 := { s1 with error := "" }
    let req := Request.analyze s.resumeText s.jobDescription
    let r := analyzeTry s2 (net req)
    let s3 :=
      match r.2 with
      | some message => { r.1 with error := "Error analyzing match: " ++ message }
      | none => r.1
    { state := { s3 with loading := false }, requests := [req] }

/-- The `try` block of `handleRewriteBullets`. -/
def rewriteTry (s : State) : Fetched RewriteData → State × Option String
  | .rejected message => (s, some message)
  | .response ok json =>
    if !ok then (s, some "Failed to rewrite bullets")
    else
      match json with
      | .error message => (s, some message)
      | .ok data => ({ s with rewrittenBullets := data.bullets }, none)

/-- The handler `handleRewriteBullets`. -/
def handleRewriteBullets (s : State) (net : Request → Fetched RewriteData) : Outcome :=
  let validBullets := s.bullets.filter (fun b => jsTruthy (jsTrim b))
  if validBullets.length == 0 then
    { state := { s with error := "Please add at least one bullet point" },
      requests := [] }
  else if !jsTruthy (jsTrim s.jobDescription) then
    { state := { s with error := "Please provide a job description" },
      requests := [] }
  else
    let s1 := { s with loading := true }
    let s2 := { s1 with error := "" }
    let req := Request.rewriteBullets validBullets s.jobDescription
    let r := rewriteTry s2 (net req)
    let s3 :=
      match r.2 with
      | some message => { r.1 with error := "Error rewriting bullets: " ++ message }
      | none => r.1
    { state := { s3 with loading := false }, requests := [req] }

/-- The file offered by `handleDownload`. -/
structure Download where
  text : String
  mimeType : String
  download : String
  deriving DecidableEq, Repr

/-- The handler `handleDownload`, as the blob text, blob type and the
`download` attribute of the anchor that is clicked. -/
def handleDownload (s : State) : Download where
  text := jsJoin (s.rewrittenBullets.map (fun b => "• " ++ b.rewritten)) "\n"
  mimeType := "text/plain"
  download := "tailored_bullets.txt"

/-- The helper `getScoreColor`. -/
def getScoreColor (score : Int) : String :=
  if score ≥ 80 then "#22c55e"
  else if score ≥ 60 then "#f59e0b"
  else "#ef4444"

/-- The helper `getScoreLabel`. -/
def getScoreLabel (score : Int) : String :=
  if score ≥ 80 then "Strong Match!"
  else if score ≥ 60 then "Good, but can improve"
  else "Needs significant tailoring"

/-! ## User actions on the bullet editor -/

/-- The actions that touch `bullets` and `numBullets`: moving the slider
(`min="1" max="15"`), typing in one of the rendered text areas, and picking
a file, together with what the network answers to the upload. -/
inductive Action where
  | setCount (num : Int)
  | edit (index : Nat) (value : String)
  | upload (file : Option File) (answer : Fetched UploadData)

/-- One action; `none` when the interface cannot produce it (a slider value
outside `[1, 15]`, a text area that is not rendered). -/
def step (s : State) : Action → Option State
  | .setCount num =>
    if 1 ≤ num ∧ num ≤ 15 then some (handleNumBulletsChange s num) else none
  | .edit index value =>
    if index < s.bullets.length then some (handleBulletChange s index value) else none
  | .upload file answer => some (handleFileUpload s file (fun _ => answer)).state

/-- A sequence of actions, first to last. -/
def run (s : State) : List Action → Option State
  | [] => some s
  | a :: rest => (step s a).bind (fun s1 => run s1 rest)

/-- The states reachable from the initial state. -/
def Reachable (s : State) : Prop :=
  ∃ actions : List Action, run initialState actions = some s

/-! ## Words of the specification -/

/-- A string is non-empty after trimming when some character of it is not
white space. -/
def nonEmptyAfterTrim (s : String) : Bool :=
  s.data.any (fun c => !isJsWhitespace c)

/-- The rewritten strings, each preceded by the bullet marker. -/
def markedLines (rs : List RewrittenBullet) : List String :=
  rs.map (fun b => "• " ++ b.rewritten)

/-- Lines joined by a single newline: nothing for no line, the line itself
for one line, and otherwise the first line, a newline, and the rest joined. -/
def joinedByNewline : List String → String
  | [] => ""
  | [x] => x
  | x :: y :: rest => x ++ "\n" ++ joinedByNewline (y :: rest)

/-! ## Sample inputs -/

/-- A picked file used in the concrete instances below. -/
def sampleFile : File where
  name := "cv.pdf"
  content := "%PDF"

/-- A successful upload answer carrying seven bullets. -/
def sevenBullets : Fetched UploadData :=
  Fetched.response true
    (Except.ok { text := "text", filename := "cv.pdf",
                 bullets := some ["1", "2", "3", "4", "5", "6", "7"] })

/-- A state holding an earlier upload: resume text, file name and bullets. -/
def earlierUpload : State :=
  { initialState with
    resumeText := "old text", fileName := "old.pdf",
    bullets := ["led a team", "shipped a product", "", "", ""] }

/-- A 2xx upload answer whose JSON body has no `bullets` field. -/
def missingBullets : Fetched UploadData :=
  Fetched.response true
    (Except.ok { text := "new text", filename := "new.pdf", bullets := none })

/-- A successful upload answer carrying two bullets. -/
def twoBullets : Fetched UploadData :=
  Fetched.response true
    (Except.ok { text := "text", filename := "cv.pdf", bullets := some ["1", "2"] })

/-- A state with three bullets of which the middle one is empty. -/
def threeBullets : State :=
  { initialState with bullets := ["A", "", "B"], jobDescription := "job", numBullets := 3 }

/-- A state whose bullets are all blank, with a stored rewrite result. -/
def blankBullets : State :=
  { initialState with
    bullets := ["", "  ", "\n"], jobDescription := "job", numBullets := 3,
    rewrittenBullets := [{ original := "a", rewritten := "b" }] }

/-- A state with a resume, a stored analysis result, a request marked as in
flight, and a job description of white space only. -/
def storedResult : State :=
  { initialState with
    resumeText := "resume", jobDescription := " \n\t", matchScore := some 72,
    gaps := ["Kubernetes"], loading := true }

/-- A state with a resume, a job description and a stored analysis result. -/
def readyWithResult : State :=
  { initialState with
    resumeText := "resume", jobDescription := "job", matchScore := some 72,
    gaps := ["Kubernetes"] }

/-- A successful analyze answer. -/
def analyzeOk : Fetched AnalyzeData :=
  Fetched.response true (Except.ok { score := 85, gaps := [] })

/-- A response with status 500; its body is never read. -/
def serverError {α : Type} : Fetched α :=
  Fetched.response false (Except.error "Unexpected token")

/-! ## Auxiliary lemmas -/

/-- The padding loop appends exactly the missing number of empty strings. -/
theorem pushWhileShorter_eq (xs : List String) (num : Int) :
    pushWhileShorter xs num = xs ++ List.replicate (num - xs.length).toNat "" := by
  generalize hk : (num - xs.length).toNat = k
  induction k generalizing xs with
  | zero =>
    rw [pushWhileShorter]
    have : ¬ ((xs.length : Int) < num) := by omega
    simp [this]
  | succ k ih =>
    rw [pushWhileShorter]
    have h : (xs.length : Int) < num := by omega
    rw [if_pos h, ih (xs ++ [""])]
    · simp [List.replicate_succ]
    · simp only [List.length_append, List.length_singleton]
      omega

/-- The call `xs.slice(0, n)` with `n ≥ 0` keeps the first `n` entries. -/
theorem jsSlice_zero_of_nonneg {α : Type} (xs : List α) (n : Int) (hn : 0 ≤ n) :
    jsSlice xs 0 n = xs.take n.toNat := by
  unfold jsSlice
  have h0 : ¬ ((0 : Int) < 0) := by decide
  have h1 : ¬ (n < 0) := by omega
  simp only [h0, h1, if_false]
  have h2 : min (0 : Int) (xs.length : Int) = 0 := by omega
  rw [h2]
  simp only [Int.toNat_zero, List.drop_zero, sub_zero]
  rcases le_total n (xs.length : Int) with h | h
  · rw [min_eq_left h]
  · rw [min_eq_right h]
    simp only [Int.toNat_ofNat]
    rw [List.take_of_length_le (le_refl _), List.take_of_length_le]
    omega

theorem jsJoin_go (sep : String) (xs : List String) (acc : String) (k : Nat) :
    (xs.foldl (jsJoinStep sep) (acc, k + 1)).1 = String.intercalate.go acc sep xs := by
  induction xs generalizing acc k with
  | nil => rfl
  | cons x rest ih =>
    simp only [List.foldl_cons, jsJoinStep, String.intercalate.go]
    simpa using ih (acc ++ sep ++ x) (k + 1)

/-- The join loop computes the library intercalation. -/
theorem jsJoin_eq_intercalate (xs : List String) (sep : String) :
    jsJoin xs sep = sep.intercalate xs := by
  cases xs with
  | nil => rfl
  | cons x rest =>
    simp only [jsJoin, List.foldl_cons, jsJoinStep, String.intercalate]
    simpa using jsJoin_go sep rest x 0

theorem trimEndChars_eq_nil (cs : List Char) :
    trimEndChars cs = [] ↔ ∀ c ∈ cs, isJsWhitespace c = true := by
  simp [trimEndChars, List.dropWhile_eq_nil_iff]

theorem trimStartChars_all_iff (cs : List Char) :
    (∀ c ∈ trimStartChars cs, isJsWhitespace c = true) ↔
      ∀ c ∈ cs, isJsWhitespace c = true := by
  induction cs with
  | nil => simp [trimStartChars]
  | cons c rest ih =>
    by_cases hc : isJsWhitespace c = true
    · have : trimStartChars (c :: rest) = trimStartChars rest := by
        simp [trimStartChars, List.dropWhile_cons, hc]
      rw [this, ih]
      simp [hc]
    · have : trimStartChars (c :: rest) = c :: rest := by
        simp [trimStartChars, List.dropWhile_cons, hc]
      rw [this]

/-- The test `s.trim()` is truthy exactly when `s` has a character that is
not white space. -/
theorem jsTruthy_jsTrim (s : String) :
    jsTruthy (jsTrim s) = nonEmptyAfterTrim s := by
  have h : (jsTrim s).data = [] ↔ ∀ c ∈ s.data, isJsWhitespace c = true := by
    simp only [jsTrim]
    rw [trimEndChars_eq_nil, trimStartChars_all_iff]
  by_cases hall : ∀ c ∈ s.data, isJsWhitespace c = true
  · have h1 : (jsTrim s).data = [] := h.mpr hall
    have h2 : nonEmptyAfterTrim s = false := by
      simp only [nonEmptyAfterTrim, List.any_eq_false]
      intro c hc
      simp [hall c hc]
    simp [jsTruthy, h1, h2]
  · have h1 : (jsTrim s).data ≠ [] := fun hnil => hall (h.mp hnil)
    have h2 : nonEmptyAfterTrim s = true := by
      simp only [nonEmptyAfterTrim, List.any_eq_true]
      push_neg at hall
      obtain ⟨c, hc, hw⟩ := hall
      exact ⟨c, hc, by simp [hw]⟩
    have h3 : (jsTrim s).data.length ≠ 0 := by
      intro h0
      exact h1 (List.length_eq_zero.mp h0)
    rw [h2]
    unfold jsTruthy
    simp only [bne_iff_ne, ne_eq]
    exact h3

theorem append_ne_empty (p msg : String) (hp : p.data ≠ []) : p ++ msg ≠ "" := by
  intro h
  have h1 : (p ++ msg).data = [] := by rw [h]
  rw [String.data_append] at h1
  exact hp (List.append_eq_nil.mp h1).1

theorem intercalate_go_append (sep acc : String) (x : String) (xs : List String) :
    String.intercalate.go (acc ++ x) sep xs = acc ++ String.intercalate.go x sep xs := by
  induction xs generalizing x with
  | nil => rfl
  | cons y rest ih =>
    simp only [String.intercalate.go]
    rw [show acc ++ x ++ sep ++ y = acc ++ (x ++ sep ++ y) by simp [String.append_assoc]]
    exact ih (x ++ sep ++ y)

theorem jsJoin_eq_joinedByNewline (xs : List String) :
    jsJoin xs "\n" = joinedByNewline xs := by
  rw [jsJoin_eq_intercalate]
  induction xs with
  | nil => rfl
  | cons x rest ih =>
    cases rest with
    | nil => rfl
    | cons y rest2 =>
      simp only [String.intercalate, joinedByNewline] at ih ⊢
      simp only [String.intercalate.go]
      rw [← ih]
      exact intercalate_go_append "\n" (x ++ "\n") y rest2

theorem analyzeTry_failed (s : State) (a : Fetched AnalyzeData) (h : a.failed = true) :
    ∃ message, analyzeTry s a = (s, some message) := by
  cases a with
  | rejected message => exact ⟨message, rfl⟩
  | response ok json =>
    have hok : ok = false := by simpa [Fetched.failed] using h
    subst hok
    exact ⟨"Failed to analyze match", rfl⟩

theorem upload_bullets_eq (bs : List String) :
    jsSlice (jsSlice bs 0 5 ++ List.replicate 5 "") 0 5 =
      bs.take (min 5 bs.length) ++ List.replicate (5 - min 5 bs.length) "" := by
  rw [jsSlice_zero_of_nonneg _ 5 (by decide), jsSlice_zero_of_nonneg _ 5 (by decide)]
  have h5 : (5 : Int).toNat = 5 := rfl
  rw [h5, List.take_append_eq_append_take, List.take_take, List.length_take,
    List.take_replicate]
  simp

theorem uploadTry_bullets (s : State) (a : Fetched UploadData) :
    (uploadTry s a).1.bullets = s.bullets ∨ (uploadTry s a).1.bullets.length = 5 := by
  cases a with
  | rejected message => exact Or.inl rfl
  | response ok json =>
    cases ok with
    | false => exact Or.inl rfl
    | true =>
      cases json with
      | error message => exact Or.inl rfl
      | ok data =>
        obtain ⟨text, filename, bullets⟩ := data
        cases bullets with
        | none => exact Or.inl rfl
        | some bs =>
          right
          show (jsSlice (jsSlice bs 0 5 ++ List.replicate 5 "") 0 5).length = 5
          rw [upload_bullets_eq, List.length_append, List.length_take, List.length_replicate]
          omega

/-- After an upload attempt the bullets are the old ones or five entries. -/
theorem handleFileUpload_bullets (s : State) (file : Option File)
    (net : Request → Fetched UploadData) :
    (handleFileUpload s file net).state.bullets = s.bullets ∨
      (handleFileUpload s file net).state.bullets.length = 5 := by
  cases file with
  | none => exact Or.inl rfl
  | some f =>
    have h := uploadTry_bullets { s with loading := true, error := "" }
      (net (Request.uploadResume f))
    simp only [handleFileUpload]
    cases hr : (uploadTry { s with loading := true, error := "" }
      (net (Request.uploadResume f))).2 with
    | none => simpa [hr] using h
    | some message => simpa [hr] using h

/-- An upload attempt never writes `numBullets`. -/
theorem handleFileUpload_numBullets (s : State) (file : Option File)
    (net : Request → Fetched UploadData) :
    (handleFileUpload s file net).state.numBullets = s.numBullets := by
  cases file with
  | none => rfl
  | some f =>
    have h : ∀ (t : State) (a : Fetched UploadData), (uploadTry t a).1.numBullets = t.numBullets := by
      intro t a
      cases a with
      | rejected message => rfl
      | response ok json =>
        cases ok with
        | false => rfl
        | true =>
          cases json with
          | error message => rfl
          | ok data =>
            obtain ⟨text, filename, bullets⟩ := data
            cases bullets <;> rfl
    have h1 := h { s with loading := true, error := "" } (net (Request.uploadResume f))
    simp only [handleFileUpload]
    cases hr : (uploadTry { s with loading := true, error := "" }
      (net (Request.uploadResume f))).2 with
    | none => simpa [hr] using h1
    | some message => simpa [hr] using h1

/-- An upload whose fetch fails (transport error or non-2xx response), or
whose body cannot be parsed, leaves the resume text, the file name and the
bullets as they were, sets a non-empty error and clears `loading`. -/
theorem handleFileUpload_failed_fetch (s : State) (f : File)
    (net : Request → Fetched UploadData)
    (h : (net (Request.uploadResume f)).failed = true ∨
      ∃ message, net (Request.uploadResume f) = Fetched.response true (Except.error message)) :
    (handleFileUpload s (some f) net).state.resumeText = s.resumeText ∧
      (handleFileUpload s (some f) net).state.fileName = s.fileName ∧
      (handleFileUpload s (some f) net).state.bullets = s.bullets ∧
      (handleFileUpload s (some f) net).state.error ≠ "" ∧
      (handleFileUpload s (some f) net).state.loading = false := by
  have key : ∃ message, uploadTry { s with loading := true, error := "" }
      (net (Request.uploadResume f)) = ({ s with loading := true, error := "" }, some message) := by
    rcases h with h | ⟨message, h⟩
    · cases hn : net (Request.uploadResume f) with
      | rejected message => exact ⟨message, rfl⟩
      | response ok json =>
        have hok : ok = false := by simpa [hn, Fetched.failed] using h
        subst hok
        exact ⟨"Failed to upload file", rfl⟩
    · rw [h]
      exact ⟨message, rfl⟩
  obtain ⟨message, hm⟩ := key
  have hs : (handleFileUpload s (some f) net).state =
      { s with loading := false, error := "Error uploading file: " ++ message } := by
    simp only [handleFileUpload, hm]
  rw [hs]
  exact ⟨rfl, rfl, rfl, append_ne_empty _ _ (by decide), rfl⟩

theorem handleNumBulletsChange_length (s : State) (N : Int) (h1 : 1 ≤ N) (h15 : N ≤ 15) :
    ((handleNumBulletsChange s N).bullets.length : Int) = N := by
  simp only [handleNumBulletsChange, pushWhileShorter_eq]
  rw [jsSlice_zero_of_nonneg _ N (by omega), List.length_take, List.length_append,
    List.length_replicate]
  omega

theorem step_length_bounds (s t : State) (a : Action) (h : step s a = some t)
    (hs : 1 ≤ s.bullets.length ∧ s.bullets.length ≤ 15) :
    1 ≤ t.bullets.length ∧ t.bullets.length ≤ 15 := by
  cases a with
  | setCount num =>
    simp only [step] at h
    split at h
    · rename_i hn
      have ht : t = handleNumBulletsChange s num := by
        simpa using h.symm
      have hl := handleNumBulletsChange_length s num hn.1 hn.2
      rw [ht]
      omega
    · simp at h
  | edit index value =>
    simp only [step] at h
    split at h
    · have ht : t = handleBulletChange s index value := by
        simpa using h.symm
      rw [ht]
      simpa [handleBulletChange] using hs
    · simp at h
  | upload file answer =>
    simp only [step] at h
    have ht : t = (handleFileUpload s file (fun _ => answer)).state := by
      simpa using h.symm
    rw [ht]
    rcases handleFileUpload_bullets s file (fun _ => answer) with hb | hb
    · rw [hb]
      exact hs
    · omega

theorem run_length_bounds (actions : List Action) (s t : State)
    (h : run s actions = some t)
    (hs : 1 ≤ s.bullets.length ∧ s.bullets.length ≤ 15) :
    1 ≤ t.bullets.length ∧ t.bullets.length ≤ 15 := by
  induction actions generalizing s with
  | nil =>
    simp only [run, Option.some.injEq] at h
    rw [← h]
    exact hs
  | cons a rest ih =>
    simp only [run] at h
    cases hstep : step s a with
    | none => simp [hstep] at h
    | some s1 =>
      rw [hstep] at h
      exact ih s1 h (step_length_bounds s s1 a hstep hs)

/-- In every reachable state the length of the bullet list lies in
`[1, 15]`. -/
theorem reachable_length_bounds (s : State) (h : Reachable s) :
    1 ≤ s.bullets.length ∧ s.bullets.length ≤ 15 := by
  obtain ⟨actions, hrun⟩ := h
  exact run_length_bounds actions initialState s hrun (by decide)

/-! ## Claims -/

/-- C1: for every bullet list and every `N` with `1 ≤ N ≤ 15`,
`handleNumBulletsChange N` gives a bullet list of length exactly `N` whose
entry at each index below `N` is the old entry when the index was inside the
old list and the empty string otherwise, and sets `numBullets` to `N`. -/
theorem handleNumBulletsChange_spec (s : State) (N : Int) (h1 : 1 ≤ N) (h15 : N ≤ 15) :
    ((handleNumBulletsChange s N).bullets.length : Int) = N ∧
    (∀ i : Nat, (i : Int) < N → i < s.bullets.length →
      (handleNumBulletsChange s N).bullets[i]? = s.bullets[i]?) ∧
    (∀ i : Nat, (i : Int) < N → s.bullets.length ≤ i →
      (handleNumBulletsChange s N).bullets[i]? = some "") ∧
    (handleNumBulletsChange s N).numBullets = N := by
  have hb : (handleNumBulletsChange s N).bullets =
      (s.bullets ++ List.replicate (N - s.bullets.length).toNat "").take N.toNat := by
    simp only [handleNumBulletsChange, pushWhileShorter_eq]
    exact jsSlice_zero_of_nonneg _ N (by omega)
  refine ⟨?_, ?_, ?_, rfl⟩
  · rw [hb, List.length_take, List.length_append, List.length_replicate]
    omega
  · intro i hi hlt
    rw [hb, List.getElem?_take_of_lt (by omega), List.getElem?_append_left hlt]
  · intro i hi hge
    rw [hb, List.getElem?_take_of_lt (by omega), List.getElem?_append_right hge,
      List.getElem?_replicate]
    rw [if_pos (by omega)]

/-- C1 at a concrete input: growing the list of `earlierUpload` from five
entries to seven. -/
theorem handleNumBulletsChange_spec_witness :
    (1 : Int) ≤ 7 ∧ (7 : Int) ≤ 15 ∧
      (((handleNumBulletsChange earlierUpload 7).bullets.length : Int) = 7 ∧
        (∀ i : Nat, (i : Int) < 7 → i < earlierUpload.bullets.length →
          (handleNumBulletsChange earlierUpload 7).bullets[i]? = earlierUpload.bullets[i]?) ∧
        (∀ i : Nat, (i : Int) < 7 → earlierUpload.bullets.length ≤ i →
          (handleNumBulletsChange earlierUpload 7).bullets[i]? = some "") ∧
        (handleNumBulletsChange earlierUpload 7).numBullets = 7) :=
  ⟨by decide, by decide,
    handleNumBulletsChange_spec earlierUpload 7 (by decide) (by decide)⟩

/-- C2: for every successful upload response whose `bullets` field is a list
`bs` of strings, `handleFileUpload` sets the bullet list to a list of length
exactly 5 made of the first `min 5 (length bs)` entries of `bs` in order
followed by empty strings, and sets the resume text and the file name to the
`text` and `filename` of the response. -/
theorem handleFileUpload_success (s : State) (f : File) (net : Request → Fetched UploadData)
    (text filename : String) (bs : List String)
    (hnet : net (Request.uploadResume f) =
      Fetched.response true (Except.ok { text := text, filename := filename, bullets := some bs })) :
    (handleFileUpload s (some f) net).state.bullets =
        bs.take (min 5 bs.length) ++ List.replicate (5 - min 5 bs.length) "" ∧
      (handleFileUpload s (some f) net).state.bullets.length = 5 ∧
      (handleFileUpload s (some f) net).state.resumeText = text ∧
      (handleFileUpload s (some f) net).state.fileName = filename := by
  have hb : (handleFileUpload s (some f) net).state.bullets =
      bs.take (min 5 bs.length) ++ List.replicate (5 - min 5 bs.length) "" := by
    simp only [handleFileUpload, hnet, uploadTry]
    exact upload_bullets_eq bs
  refine ⟨hb, ?_, ?_, ?_⟩
  · rw [hb, List.length_append, List.length_take, List.length_replicate]
    omega
  · simp [handleFileUpload, hnet, uploadTry]
  · simp [handleFileUpload, hnet, uploadTry]

/-- C2 at a response carrying seven bullets, of which exactly the first five
are kept, and at a response carrying two bullets, which are followed by three
empty strings. -/
theorem handleFileUpload_success_witness :
    ((handleFileUpload initialState (some sampleFile) (fun _ => sevenBullets)).state.bullets =
          ["1", "2", "3", "4", "5"] ∧
        (handleFileUpload initialState (some sampleFile) (fun _ => sevenBullets)).state.bullets.length = 5 ∧
        (handleFileUpload initialState (some sampleFile) (fun _ => sevenBullets)).state.resumeText = "text" ∧
        (handleFileUpload initialState (some sampleFile) (fun _ => sevenBullets)).state.fileName = "cv.pdf") ∧
      (handleFileUpload earlierUpload (some sampleFile) (fun _ => twoBullets)).state.bullets =
        ["1", "2", "", "", ""] :=
  ⟨handleFileUpload_success initialState sampleFile (fun _ => sevenBullets) "text" "cv.pdf"
      ["1", "2", "3", "4", "5", "6", "7"] rfl,
    (handleFileUpload_success earlierUpload sampleFile (fun _ => twoBullets) "text" "cv.pdf"
      ["1", "2"] rfl).1⟩

/-- C3: whenever `handleRewriteBullets` issues a request, the request is the
rewrite request whose `bullets` field is the bullet list filtered to the
entries that are non-empty after trimming, in their original order and with
their original text, and whose `job_description` is the job description. -/
theorem handleRewriteBullets_payload (s : State) (net : Request → Fetched RewriteData)
    (req : Request) (hreq : req ∈ (handleRewriteBullets s net).requests) :
    req = Request.rewriteBullets (s.bullets.filter nonEmptyAfterTrim) s.jobDescription ∧
      (handleRewriteBullets s net).requests = [req] := by
  have hf : (fun b => jsTruthy (jsTrim b)) = nonEmptyAfterTrim := by
    funext b
    exact jsTruthy_jsTrim b
  unfold handleRewriteBullets at hreq ⊢
  rw [hf] at hreq ⊢
  simp only at hreq ⊢
  split at hreq
  · simp at hreq
  · split at hreq
    · simp at hreq
    · simp only [List.mem_singleton] at hreq
      subst hreq
      simp [*]

/-- C3 at the bullet list `["A", "", "B"]`: a request is issued and its
payload bullets are `["A", "B"]`. -/
theorem handleRewriteBullets_payload_witness :
    Request.rewriteBullets ["A", "B"] "job" ∈
        (handleRewriteBullets threeBullets (fun _ => serverError)).requests ∧
      (Request.rewriteBullets ["A", "B"] "job" =
          Request.rewriteBullets (threeBullets.bullets.filter nonEmptyAfterTrim)
            threeBullets.jobDescription ∧
        (handleRewriteBullets threeBullets (fun _ => serverError)).requests =
          [Request.rewriteBullets ["A", "B"] "job"]) :=
  ⟨by decide,
    handleRewriteBullets_payload threeBullets (fun _ => serverError)
      (Request.rewriteBullets ["A", "B"] "job") (by decide)⟩

/-- C4: in every state in which the resume text or the job description is
empty after trimming, `handleAnalyze` issues no request, sets `error` to a
non-empty message, and leaves `matchScore`, `gaps` and `loading` unchanged. -/
theorem handleAnalyze_guard (s : State) (net : Request → Fetched AnalyzeData)
    (h : nonEmptyAfterTrim s.resumeText = false ∨ nonEmptyAfterTrim s.jobDescription = false) :
    (handleAnalyze s net).requests = [] ∧
      (handleAnalyze s net).state.error ≠ "" ∧
      (handleAnalyze s net).state.matchScore = s.matchScore ∧
      (handleAnalyze s net).state.gaps = s.gaps ∧
      (handleAnalyze s net).state.loading = s.loading := by
  have hg : (!jsTruthy (jsTrim s.resumeText) || !jsTruthy (jsTrim s.jobDescription)) = true := by
    rw [jsTruthy_jsTrim, jsTruthy_jsTrim]
    rcases h with h | h <;> simp [h]
  unfold handleAnalyze
  rw [if_pos hg]
  exact ⟨rfl, by simp, rfl, rfl, rfl⟩

/-- C4 at a state with a resume, a stored result, and a job description made
of white space only. -/
theorem handleAnalyze_guard_witness :
    (nonEmptyAfterTrim storedResult.resumeText = false ∨
        nonEmptyAfterTrim storedResult.jobDescription = false) ∧
      (handleAnalyze storedResult (fun _ => analyzeOk)).requests = [] ∧
      (handleAnalyze storedResult (fun _ => analyzeOk)).state.error ≠ "" ∧
      (handleAnalyze storedResult (fun _ => analyzeOk)).state.matchScore = storedResult.matchScore ∧
      (handleAnalyze storedResult (fun _ => analyzeOk)).state.gaps = storedResult.gaps ∧
      (handleAnalyze storedResult (fun _ => analyzeOk)).state.loading = storedResult.loading :=
  ⟨Or.inr (by decide),
    handleAnalyze_guard storedResult (fun _ => analyzeOk) (Or.inr (by decide))⟩

/-- C5: for every prior state and every analyze request that fails (the
fetch rejects, or the response is not 2xx), after `handleAnalyze` the stored
`matchScore` and `gaps` are the ones stored before the call, `error` is a
non-empty string and `loading` is false. -/
theorem handleAnalyze_failure (s : State) (net : Request → Fetched AnalyzeData)
    (req : Request) (hreq : req ∈ (handleAnalyze s net).requests)
    (hfail : (net req).failed = true) :
    (handleAnalyze s net).state.matchScore = s.matchScore ∧
      (handleAnalyze s net).state.gaps = s.gaps ∧
      (handleAnalyze s net).state.error ≠ "" ∧
      (handleAnalyze s net).state.loading = false := by
  have hg : ¬ ((!jsTruthy (jsTrim s.resumeText) || !jsTruthy (jsTrim s.jobDescription)) = true) := by
    intro hg
    simp [handleAnalyze, hg] at hreq
  have hr : req = Request.analyze s.resumeText s.jobDescription := by
    simpa [handleAnalyze, hg] using hreq
  subst hr
  obtain ⟨message, hm⟩ := analyzeTry_failed
    { s with loading := true, error := "" } _ hfail
  have hs : (handleAnalyze s net).state =
      { s with loading := false, error := "Error analyzing match: " ++ message } := by
    unfold handleAnalyze
    rw [if_neg hg]
    simp only [hm]
  rw [hs]
  exact ⟨rfl, rfl, append_ne_empty _ _ (by decide), rfl⟩

/-- C5 at a state holding a stored result, answered by a 500 response. -/
theorem handleAnalyze_failure_witness :
    Request.analyze "resume" "job" ∈ (handleAnalyze readyWithResult (fun _ => serverError)).requests ∧
      (serverError : Fetched AnalyzeData).failed = true ∧
      (handleAnalyze readyWithResult (fun _ => serverError)).state.matchScore = readyWithResult.matchScore ∧
      (handleAnalyze readyWithResult (fun _ => serverError)).state.gaps = readyWithResult.gaps ∧
      (handleAnalyze readyWithResult (fun _ => serverError)).state.error ≠ "" ∧
      (handleAnalyze readyWithResult (fun _ => serverError)).state.loading = false :=
  ⟨by decide, by decide,
    handleAnalyze_failure readyWithResult (fun _ => serverError) (Request.analyze "resume" "job")
      (by decide) (by decide)⟩

/-- C6: an upload that takes the failure path of `handleFileUpload` may
leave a partial update.  On a 2xx response whose body has `text` and
`filename` but no `bullets`, the `try` block throws, the error is set and
the bullets stay as they were, but the resume text and the file name have
already been replaced by those of the response. -/
theorem handleFileUpload_half_update :
    (uploadTry { earlierUpload with loading := true, error := "" } missingBullets).2 ≠ none ∧
      (handleFileUpload earlierUpload (some sampleFile) (fun _ => missingBullets)).state.error ≠ "" ∧
      (handleFileUpload earlierUpload (some sampleFile) (fun _ => missingBullets)).state.bullets =
        earlierUpload.bullets ∧
      earlierUpload.resumeText = "old text" ∧
      (handleFileUpload earlierUpload (some sampleFile) (fun _ => missingBullets)).state.resumeText =
        "new text" ∧
      earlierUpload.fileName = "old.pdf" ∧
      (handleFileUpload earlierUpload (some sampleFile) (fun _ => missingBullets)).state.fileName =
        "new.pdf" := by
  decide

/-- C7: for every integer score, `getScoreColor` and `getScoreLabel` select
the same band: at least 80 gives green and "Strong Match!", from 60 up to 79
gives amber and "Good, but can improve", below 60 gives red and "Needs
significant tailoring". -/
theorem score_bands (score : Int) :
    (80 ≤ score → getScoreColor score = "#22c55e" ∧ getScoreLabel score = "Strong Match!") ∧
      (60 ≤ score → score < 80 →
        getScoreColor score = "#f59e0b" ∧ getScoreLabel score = "Good, but can improve") ∧
      (score < 60 →
        getScoreColor score = "#ef4444" ∧ getScoreLabel score = "Needs significant tailoring") := by
  refine ⟨?_, ?_, ?_⟩
  · intro h
    simp [getScoreColor, getScoreLabel, h]
  · intro h60 h80
    have : ¬ (80 ≤ score) := by omega
    simp [getScoreColor, getScoreLabel, h60, this]
  · intro h
    have h1 : ¬ (80 ≤ score) := by omega
    have h2 : ¬ (60 ≤ score) := by omega
    simp [getScoreColor, getScoreLabel, h1, h2]

/-- C7 at the scores 85, 60 and 40. -/
theorem score_bands_witness :
    (getScoreColor 85 = "#22c55e" ∧ getScoreLabel 85 = "Strong Match!") ∧
      (getScoreColor 60 = "#f59e0b" ∧ getScoreLabel 60 = "Good, but can improve") ∧
      (getScoreColor 40 = "#ef4444" ∧ getScoreLabel 40 = "Needs significant tailoring") :=
  ⟨(score_bands 85).1 (by decide), (score_bands 60).2.1 (by decide) (by decide),
    (score_bands 40).2.2 (by decide)⟩

/-- C8: for every rewrite result, the text produced by `handleDownload` is
the rewritten strings in their order, each preceded by the bullet marker,
joined by a single newline with nothing after the last one (the empty string
when there is none), and the download is named `tailored_bullets.txt`. -/
theorem handleDownload_spec (s : State) :
    (handleDownload s).text = "\n".intercalate (markedLines s.rewrittenBullets) ∧
      (handleDownload s).text = joinedByNewline (markedLines s.rewrittenBullets) ∧
      (handleDownload s).download = "tailored_bullets.txt" := by
  refine ⟨?_, ?_, rfl⟩
  · simp only [handleDownload, markedLines]
    exact jsJoin_eq_intercalate _ _
  · simp only [handleDownload, markedLines]
    exact jsJoin_eq_joinedByNewline _

/-- C9: when no bullet is non-empty after trimming, or the job description
is empty after trimming, `handleRewriteBullets` issues no request, sets
`error` to a non-empty message and leaves `rewrittenBullets` and `loading`
unchanged; when some bullet is non-empty after trimming and the job
description is non-empty after trimming, exactly one request is issued. -/
theorem handleRewriteBullets_guard (s : State) (net : Request → Fetched RewriteData) :
    (((∀ b ∈ s.bullets, nonEmptyAfterTrim b = false) ∨
          nonEmptyAfterTrim s.jobDescription = false) →
        (handleRewriteBullets s net).requests = [] ∧
          (handleRewriteBullets s net).state.error ≠ "" ∧
          (handleRewriteBullets s net).state.rewrittenBullets = s.rewrittenBullets ∧
          (handleRewriteBullets s net).state.loading = s.loading) ∧
      (((∃ b ∈ s.bullets, nonEmptyAfterTrim b = true) ∧
          nonEmptyAfterTrim s.jobDescription = true) →
        (handleRewriteBullets s net).requests =
          [Request.rewriteBullets (s.bullets.filter nonEmptyAfterTrim) s.jobDescription]) := by
  have hf : (fun b => jsTruthy (jsTrim b)) = nonEmptyAfterTrim := by
    funext b
    exact jsTruthy_jsTrim b
  constructor
  · intro h
    unfold handleRewriteBullets
    rw [hf, jsTruthy_jsTrim]
    simp only
    by_cases hv : ((s.bullets.filter nonEmptyAfterTrim).length == 0) = true
    · rw [if_pos hv]
      exact ⟨rfl, by simp, rfl, rfl⟩
    · rw [if_neg hv]
      have hj : nonEmptyAfterTrim s.jobDescription = false := by
        rcases h with h | h
        · exfalso
          apply hv
          have : s.bullets.filter nonEmptyAfterTrim = [] := by
            rw [List.filter_eq_nil_iff]
            intro b hb
            simp [h b hb]
          simp [this]
        · exact h
      have hj2 : (!nonEmptyAfterTrim s.jobDescription) = true := by simp [hj]
      rw [if_pos hj2]
      exact ⟨rfl, by simp, rfl, rfl⟩
  · rintro ⟨⟨b, hb, hne⟩, hj⟩
    unfold handleRewriteBullets
    rw [hf, jsTruthy_jsTrim]
    simp only
    have hv : ¬ (((s.bullets.filter nonEmptyAfterTrim).length == 0) = true) := by
      intro hv
      have hnil : s.bullets.filter nonEmptyAfterTrim = [] :=
        List.length_eq_zero.mp (by simpa using hv)
      have hmem : b ∈ s.bullets.filter nonEmptyAfterTrim := List.mem_filter.mpr ⟨hb, hne⟩
      rw [hnil] at hmem
      exact absurd hmem (List.not_mem_nil b)
    have hj2 : ¬ ((!nonEmptyAfterTrim s.jobDescription) = true) := by simp [hj]
    rw [if_neg hv, if_neg hj2]

/-- C9 at a state whose bullets are all blank and at a state with two
non-blank bullets. -/
theorem handleRewriteBullets_guard_witness :
    ((handleRewriteBullets blankBullets (fun _ => serverError)).requests = [] ∧
        (handleRewriteBullets blankBullets (fun _ => serverError)).state.error ≠ "" ∧
        (handleRewriteBullets blankBullets (fun _ => serverError)).state.rewrittenBullets =
          blankBullets.rewrittenBullets ∧
        (handleRewriteBullets blankBullets (fun _ => serverError)).state.loading =
          blankBullets.loading) ∧
      (handleRewriteBullets threeBullets (fun _ => serverError)).requests =
        [Request.rewriteBullets (threeBullets.bullets.filter nonEmptyAfterTrim)
          threeBullets.jobDescription] :=
  ⟨(handleRewriteBullets_guard blankBullets (fun _ => serverError)).1 (Or.inl (by decide)),
    (handleRewriteBullets_guard threeBullets (fun _ => serverError)).2
      ⟨⟨"A", by decide, by decide⟩, by decide⟩⟩

/-- C10: the count shown by the slider can differ from the length of the
bullet list in a reachable state.  Moving the slider to 3 and then
completing an upload gives a state with five bullets while `numBullets`
is still 3. -/
theorem numBullets_stale_after_upload :
    (run initialState
        [Action.setCount 3, Action.upload (some sampleFile) twoBullets]).map
      (fun s => (s.numBullets, s.bullets.length, s.bullets)) =
      some (3, 5, ["1", "2", "", "", ""]) := by
  simp [run, step, handleNumBulletsChange, pushWhileShorter_eq, handleFileUpload, uploadTry,
    twoBullets, initialState, jsSlice]

end App
